import Mathlib

/-!
Shallow embedding of the command-buffer and resource-binding core of the
`src/vulkan` driver (mainly `src/vulkan/device.c`), together with proofs
about the relocation-list, submission-packaging, reset and flush-state
protocols.  Machine integers are modelled as `Nat` with explicit reduction
modulo `2^32` where the C code computes in `uint32_t`.
-/

/-- The modulus of `uint32_t` arithmetic. -/
def U32_LIMIT : Nat := 2 ^ 32

/-- Truncation of a natural number to `uint32_t`. -/
def u32 (x : Nat) : Nat := x % U32_LIMIT

/-- Bitwise complement on `uint32_t` (for arguments below `2^32` this is
exclusive-or with the all-ones word). -/
def not_u32 (x : Nat) : Nat := x ^^^ (U32_LIMIT - 1)

/-- The repository's `align_u32(v, a) = (v + a - 1) & ~(a - 1)` macro
(declared in a driver header outside `src/`; modelled from the spec's
round-up-to-alignment allocation contract), in `uint32_t` arithmetic. -/
def align_u32 (v a : Nat) : Nat := u32 (v + a - 1) &&& not_u32 (u32 (a - 1))

theorem u32_eq_of_lt {x : Nat} (h : x < U32_LIMIT) : u32 x = x :=
  Nat.mod_eq_of_lt h

/-- The complement of the low-bit mask `2^k - 1` in a 32-bit word is the
high-bit mask `2^32 - 2^k`. -/
theorem not_u32_two_pow_sub_one {k : Nat} (hk : k ≤ 32) :
    not_u32 (2 ^ k - 1) = 2 ^ 32 - 2 ^ k := by
  have hsplit : 2 ^ 32 - 2 ^ k = 2 ^ k * (2 ^ (32 - k) - 1) := by
    rw [Nat.mul_sub_one, ← Nat.pow_add, Nat.add_sub_cancel' hk]
  apply Nat.eq_of_testBit_eq
  intro i
  rw [not_u32, U32_LIMIT, hsplit]
  rw [Nat.testBit_xor, Nat.testBit_two_pow_sub_one, Nat.testBit_two_pow_sub_one,
    Nat.testBit_mul_pow_two, Nat.testBit_two_pow_sub_one]
  rcases Nat.lt_or_ge i k with hik | hik
  · simp [hik, Nat.lt_of_lt_of_le hik hk, Nat.not_le_of_lt hik]
  · rcases Nat.lt_or_ge i 32 with hi32 | hi32
    · have h1 : i - k < 32 - k := by omega
      simp [Nat.not_lt_of_le hik, hi32, hik, h1]
    · have h1 : ¬ i - k < 32 - k := by omega
      simp [Nat.not_lt_of_le hik, Nat.not_lt_of_le hi32, hik, h1]

/-- Conjunction with the high-bit mask clears the low `k` bits: for
`x < 2^32` it rounds `x` down to a multiple of `2^k`. -/
theorem and_high_mask_eq {x k : Nat} (hk : k ≤ 32) (hx : x < 2 ^ 32) :
    x &&& (2 ^ 32 - 2 ^ k) = 2 ^ k * (x / 2 ^ k) := by
  have hsplit : 2 ^ 32 - 2 ^ k = 2 ^ k * (2 ^ (32 - k) - 1) := by
    rw [Nat.mul_sub_one, ← Nat.pow_add, Nat.add_sub_cancel' hk]
  have hq : x / 2 ^ k < 2 ^ (32 - k) := by
    apply Nat.div_lt_of_lt_mul
    calc x < 2 ^ 32 := hx
    _ = 2 ^ k * 2 ^ (32 - k) := by rw [← Nat.pow_add, Nat.add_sub_cancel' hk]
  have hdecomp : x = 2 ^ k * (x / 2 ^ k) + x % 2 ^ k := (Nat.div_add_mod x (2 ^ k)).symm
  apply Nat.eq_of_testBit_eq
  intro i
  rw [hsplit]
  conv_lhs => rw [hdecomp]
  rw [Nat.testBit_and,
    Nat.testBit_mul_pow_two_add _ (Nat.mod_lt x (Nat.two_pow_pos k)),
    Nat.testBit_mul_pow_two, Nat.testBit_mul_pow_two, Nat.testBit_two_pow_sub_one]
  rcases Nat.lt_or_ge i k with hik | hik
  · simp [hik, Nat.not_le_of_lt hik]
  · rcases Nat.lt_or_ge (i - k) (32 - k) with h1 | h1
    · simp [Nat.not_lt_of_le hik, hik, h1]
    · have hbit : (x / 2 ^ k).testBit (i - k) = false := by
        apply Nat.testBit_lt_two_pow
        exact Nat.lt_of_lt_of_le hq (Nat.pow_le_pow_right (by omega) h1)
      simp [Nat.not_lt_of_le hik, hik, h1, hbit]

/-- For power-of-two alignments, `align_u32` is rounding up to the next
multiple of the alignment. -/
theorem align_u32_two_pow {v k : Nat} (hk : k ≤ 32) (hb : v + 2 ^ k - 1 < U32_LIMIT) :
    align_u32 v (2 ^ k) = 2 ^ k * ((v + 2 ^ k - 1) / 2 ^ k) := by
  have hk1 : 1 ≤ 2 ^ k := Nat.one_le_two_pow
  have hm : 2 ^ k - 1 < U32_LIMIT := by
    have : (2 : Nat) ^ k ≤ 2 ^ 32 := Nat.pow_le_pow_right (by omega) hk
    simp only [U32_LIMIT]
    omega
  rw [align_u32, u32_eq_of_lt hb, u32_eq_of_lt hm, not_u32_two_pow_sub_one hk]
  exact and_high_mask_eq hk (by simpa [U32_LIMIT] using hb)

/-- Rounding up never decreases the value. -/
theorem le_align_u32_two_pow {v k : Nat} (hk : k ≤ 32) (hb : v + 2 ^ k - 1 < U32_LIMIT) :
    v ≤ align_u32 v (2 ^ k) := by
  rw [align_u32_two_pow hk hb]
  have h1 : 2 ^ k * ((v + 2 ^ k - 1) / 2 ^ k) = (v + 2 ^ k - 1) - (v + 2 ^ k - 1) % 2 ^ k := by
    have := Nat.div_add_mod (v + 2 ^ k - 1) (2 ^ k)
    omega
  have h2 : (v + 2 ^ k - 1) % 2 ^ k < 2 ^ k := Nat.mod_lt _ (Nat.two_pow_pos k)
  have hk1 : 1 ≤ 2 ^ k := Nat.one_le_two_pow
  omega

/-! ## VkResult and `struct anv_state` -/

/-- The result codes this core returns. -/
inductive VkResult where
  | success
  | error_out_of_host_memory
  | error_out_of_device_memory
  | error_unknown
deriving DecidableEq, Repr

/-- A state allocation: `struct anv_state` (map pointer, offset into the
backing block, allocation size).  The map pointer is modelled as the byte
offset inside the backing block's mapping; `none` is the NULL map. -/
structure anv_state where
  map : Option Nat
  offset : Nat
  alloc_size : Nat
deriving DecidableEq, Repr

/-- The all-zero `(struct anv_state) { 0 }` returned on exhaustion. -/
def anv_state.zero : anv_state := ⟨none, 0, 0⟩

/-- The surface-state allocation cursor installed by `anv_CreateCommandBuffer`:
`cmd_buffer->surface_next = 1`, so that surface offset 0 stays invalid. -/
def anv_CreateCommandBuffer_surface_next : Nat := 1

/-- The command-buffer surface-state sub-allocator
`anv_cmd_buffer_alloc_surface_state`: align the cursor, fail with the zero
state if the request does not fit in the current surface block, otherwise
advance the cursor.  Returns the state and the new `surface_next` cursor. -/
def anv_cmd_buffer_alloc_surface_state (surface_next bo_size size alignment : Nat) :
    anv_state × Nat :=
  let offset := align_u32 surface_next alignment
  if bo_size < u32 (offset + size) then
    (anv_state.zero, surface_next)
  else
    (⟨some offset, offset, size⟩, u32 (offset + size))

/-- Rounding up to `2^k` adds less than `2^k`. -/
theorem align_u32_two_pow_le {v k : Nat} (hk : k ≤ 32) (hb : v + 2 ^ k - 1 < U32_LIMIT) :
    align_u32 v (2 ^ k) ≤ v + 2 ^ k - 1 := by
  rw [align_u32_two_pow hk hb]
  have := Nat.div_add_mod (v + 2 ^ k - 1) (2 ^ k)
  omega

/-- Claim C10: the surface-state cursor starts at 1; a successful allocation
(for the power-of-two alignments the driver uses) returns an offset of at
least 1 and leaves the cursor at least 1, so offset 0 unambiguously means
no state; an allocation that does not fit returns the zero state and leaves
the cursor unchanged. -/
theorem anv_cmd_buffer_alloc_surface_state_spec
    (surface_next bo_size size k : Nat)
    (hk : k ≤ 32) (hv : 1 ≤ surface_next)
    (hb : surface_next + 2 ^ k - 1 + size < U32_LIMIT) :
    anv_CreateCommandBuffer_surface_next = 1 ∧
    (∀ m, (anv_cmd_buffer_alloc_surface_state surface_next bo_size size (2 ^ k)).1.map = some m →
      1 ≤ (anv_cmd_buffer_alloc_surface_state surface_next bo_size size (2 ^ k)).1.offset ∧
      1 ≤ (anv_cmd_buffer_alloc_surface_state surface_next bo_size size (2 ^ k)).2) ∧
    ((anv_cmd_buffer_alloc_surface_state surface_next bo_size size (2 ^ k)).1.map = none →
      anv_cmd_buffer_alloc_surface_state surface_next bo_size size (2 ^ k)
        = (anv_state.zero, surface_next)) := by
  have hb' : surface_next + 2 ^ k - 1 < U32_LIMIT := by omega
  have halign : 1 ≤ align_u32 surface_next (2 ^ k) :=
    Nat.le_trans hv (le_align_u32_two_pow hk hb')
  have hup : align_u32 surface_next (2 ^ k) ≤ surface_next + 2 ^ k - 1 :=
    align_u32_two_pow_le hk hb'
  have hsum : align_u32 surface_next (2 ^ k) + size < U32_LIMIT := by omega
  have hu : u32 (align_u32 surface_next (2 ^ k) + size)
      = align_u32 surface_next (2 ^ k) + size := u32_eq_of_lt hsum
  refine ⟨rfl, ?_, ?_⟩
  · intro m hm
    unfold anv_cmd_buffer_alloc_surface_state at *
    by_cases hfit : bo_size < u32 (align_u32 surface_next (2 ^ k) + size)
    · simp [hfit, anv_state.zero] at hm
    · simp only [hfit, if_false]
      exact ⟨halign, by omega⟩
  · intro hm
    unfold anv_cmd_buffer_alloc_surface_state at *
    by_cases hfit : bo_size < u32 (align_u32 surface_next (2 ^ k) + size)
    · simp [hfit]
    · simp [hfit] at hm

/-- Witness for the C10 theorem at cursor 1, block size 8192, a 64-byte
request with 32-byte alignment. -/
theorem anv_cmd_buffer_alloc_surface_state_spec_witness :
    anv_CreateCommandBuffer_surface_next = 1 ∧
    (∀ m, (anv_cmd_buffer_alloc_surface_state 1 8192 64 (2 ^ 5)).1.map = some m →
      1 ≤ (anv_cmd_buffer_alloc_surface_state 1 8192 64 (2 ^ 5)).1.offset ∧
      1 ≤ (anv_cmd_buffer_alloc_surface_state 1 8192 64 (2 ^ 5)).2) ∧
    ((anv_cmd_buffer_alloc_surface_state 1 8192 64 (2 ^ 5)).1.map = none →
      anv_cmd_buffer_alloc_surface_state 1 8192 64 (2 ^ 5) = (anv_state.zero, 1)) :=
  anv_cmd_buffer_alloc_surface_state_spec 1 8192 64 5 (by omega) (by omega)
    (by norm_num [U32_LIMIT])

/-! ## Relocation lists (`anv_reloc_list`) -/

/-- One `struct drm_i915_gem_relocation_entry` as the driver fills it in. -/
structure drm_i915_gem_relocation_entry where
  offset : Nat
  delta : Nat
  target_handle : Nat
  presumed_offset : Nat
deriving DecidableEq, Repr

/-- The live contents of a `struct anv_reloc_list`: the entry array and the
parallel array of target-block references (blocks are identified by a
numeric id standing for the `struct anv_bo *`). -/
structure anv_reloc_list where
  relocs : List drm_i915_gem_relocation_entry
  reloc_bos : List Nat
deriving DecidableEq, Repr

/-- The driver's `anv_reloc_list_append(list, device, other, offset)`: copy
`other`'s entries and target blocks to the tail of `list`, then add `offset`
(in `uint32_t` arithmetic) to each copied entry's `offset` field. -/
def anv_reloc_list_append (list other : anv_reloc_list) (offset : Nat) : anv_reloc_list :=
  { relocs := list.relocs ++ other.relocs.map (fun e => { e with offset := u32 (e.offset + offset) })
  , reloc_bos := list.reloc_bos ++ other.reloc_bos }

/-- Claim C6: after `anv_reloc_list_append dst src b` the tail entries of the
destination (as many as `src` has) are `src`'s entries with each `offset`
field increased by `b`, the target-block references are copied unchanged,
and the destination's pre-existing entries and targets are unmodified. -/
theorem anv_reloc_list_append_spec (dst src : anv_reloc_list) (b : Nat)
    (hof : ∀ e ∈ src.relocs, e.offset + b < U32_LIMIT) :
    (anv_reloc_list_append dst src b).relocs.take dst.relocs.length = dst.relocs ∧
    (anv_reloc_list_append dst src b).relocs.drop dst.relocs.length
      = src.relocs.map (fun e => { e with offset := e.offset + b }) ∧
    (anv_reloc_list_append dst src b).reloc_bos.take dst.reloc_bos.length = dst.reloc_bos ∧
    (anv_reloc_list_append dst src b).reloc_bos.drop dst.reloc_bos.length = src.reloc_bos ∧
    (anv_reloc_list_append dst src b).relocs.length
      = dst.relocs.length + src.relocs.length := by
  have hmap : src.relocs.map (fun e => { e with offset := u32 (e.offset + b) })
      = src.relocs.map (fun e => { e with offset := e.offset + b }) := by
    apply List.map_congr_left
    intro e he
    have := hof e he
    simp [u32_eq_of_lt this]
  unfold anv_reloc_list_append
  refine ⟨?_, ?_, ?_, ?_, ?_⟩
  · simp [List.take_left]
  · rw [List.drop_left, hmap]
  · simp [List.take_left]
  · rw [List.drop_left]
  · simp

/-- Witness for the C6 theorem on a concrete pair of lists. -/
theorem anv_reloc_list_append_spec_witness :
    (anv_reloc_list_append ⟨[⟨4, 0, 7, 100⟩], [7]⟩ ⟨[⟨12, 8, 9, 200⟩, ⟨40, 0, 3, 300⟩], [9, 3]⟩ 256).relocs.take 1
      = [⟨4, 0, 7, 100⟩] ∧
    (anv_reloc_list_append ⟨[⟨4, 0, 7, 100⟩], [7]⟩ ⟨[⟨12, 8, 9, 200⟩, ⟨40, 0, 3, 300⟩], [9, 3]⟩ 256).relocs.drop 1
      = [⟨268, 8, 9, 200⟩, ⟨296, 0, 3, 300⟩] ∧
    (anv_reloc_list_append ⟨[⟨4, 0, 7, 100⟩], [7]⟩ ⟨[⟨12, 8, 9, 200⟩, ⟨40, 0, 3, 300⟩], [9, 3]⟩ 256).reloc_bos.take 1
      = [7] ∧
    (anv_reloc_list_append ⟨[⟨4, 0, 7, 100⟩], [7]⟩ ⟨[⟨12, 8, 9, 200⟩, ⟨40, 0, 3, 300⟩], [9, 3]⟩ 256).reloc_bos.drop 1
      = [9, 3] ∧
    (anv_reloc_list_append ⟨[⟨4, 0, 7, 100⟩], [7]⟩ ⟨[⟨12, 8, 9, 200⟩, ⟨40, 0, 3, 300⟩], [9, 3]⟩ 256).relocs.length
      = 1 + 2 := by
  have h := anv_reloc_list_append_spec ⟨[⟨4, 0, 7, 100⟩], [7]⟩
    ⟨[⟨12, 8, 9, 200⟩, ⟨40, 0, 3, 300⟩], [9, 3]⟩ 256
    (by intro e he; fin_cases he <;> norm_num [U32_LIMIT])
  simpa using h

/-! ## Relocation-list host allocation (`anv_reloc_list_init` / `_grow`)

The two host arrays of a relocation list are modelled by flags recording
whether `list->relocs` and `list->reloc_bos` are non-NULL; the outcome of
each `anv_device_alloc` call is an input `Bool` (`true` = allocation
succeeded). -/

/-- Allocation status of a `struct anv_reloc_list`'s backing arrays. -/
structure anv_reloc_list_mem where
  num_relocs : Nat
  array_length : Nat
  relocs_allocated : Bool
  reloc_bos_allocated : Bool
deriving DecidableEq, Repr

/-- The driver's `anv_reloc_list_init`.  Note the source tests
`list->relocs == NULL` a second time where it allocates `list->reloc_bos`,
so a failed `reloc_bos` allocation is never detected; the embedding mirrors
that test faithfully. -/
def anv_reloc_list_init (relocs_alloc_succeeds reloc_bos_alloc_succeeds : Bool) :
    VkResult × anv_reloc_list_mem :=
  let list0 : anv_reloc_list_mem := ⟨0, 256, relocs_alloc_succeeds, false⟩
  if list0.relocs_allocated = false then
    (VkResult.error_out_of_host_memory, list0)
  else
    let list1 := { list0 with reloc_bos_allocated := reloc_bos_alloc_succeeds }
    if list1.relocs_allocated = false then
      (VkResult.error_out_of_host_memory, { list1 with relocs_allocated := false })
    else
      (VkResult.success, list1)

/-- The doubling loop of `anv_reloc_list_grow` (`new_length *= 2` until the
requested total fits), with fuel bounding the iteration count; the fuel is
sufficient whenever the starting length is at least 1. -/
def double_until (fuel new_length needed : Nat) : Nat :=
  match fuel with
  | 0 => new_length
  | fuel + 1 => if new_length < needed then double_until fuel (new_length * 2) needed else new_length

/-- The driver's `anv_reloc_list_grow`.  The same copy-paste slip as in
`anv_reloc_list_init` is present: after allocating `new_reloc_bos` the
source re-tests `new_relocs == NULL`, so a failed `new_reloc_bos`
allocation is silently installed. -/
def anv_reloc_list_grow (list : anv_reloc_list_mem) (num_additional_relocs : Nat)
    (new_relocs_alloc_succeeds new_reloc_bos_alloc_succeeds : Bool) :
    VkResult × anv_reloc_list_mem :=
  if list.num_relocs + num_additional_relocs ≤ list.array_length then
    (VkResult.success, list)
  else
    let new_length := double_until (list.num_relocs + num_additional_relocs)
      (list.array_length * 2) (list.num_relocs + num_additional_relocs)
    if new_relocs_alloc_succeeds = false then
      (VkResult.error_out_of_host_memory, list)
    else
      if new_relocs_alloc_succeeds = false then
        (VkResult.error_out_of_host_memory, list)
      else
        (VkResult.success,
          { list with array_length := new_length
                    , relocs_allocated := true
                    , reloc_bos_allocated := new_reloc_bos_alloc_succeeds })

/-- Claim C9 evaluated at the failing input: when the relocation-entry array
allocation succeeds but the parallel target-block array allocation fails,
`anv_reloc_list_init` nevertheless returns success and leaves the list with
a NULL `reloc_bos` array, and `anv_reloc_list_grow` (here: growing a full
256-entry list by one) does the same — the failure is not surfaced as an
out-of-host-memory error, contradicting the claim. -/
theorem anv_reloc_list_init_grow_missed_failure :
    anv_reloc_list_init true false = (VkResult.success, ⟨0, 256, true, false⟩) ∧
    anv_reloc_list_grow ⟨256, 256, true, true⟩ 1 true false
      = (VkResult.success, ⟨256, 512, true, false⟩) := by
  constructor <;> rfl

/-! ## Command-buffer reset (`anv_ResetCommandBuffer`) -/

/-- The chain-related slice of `struct anv_cmd_buffer` that reset touches.
Chains are lists of backing-block ids, newest node first (the head is
`last_batch_bo` / `surface_batch_bo`, links follow `prev_batch_bo`). -/
structure anv_cmd_buffer_chains where
  batch_bos : List Nat
  surface_bos : List Nat
  batch_num_relocs : Nat
  surface_num_relocs : Nat
  surface_next : Nat
deriving DecidableEq, Repr

/-- The destroy loop `while (bbo->prev_batch_bo) { destroy(bbo); bbo = prev; }`:
pops chain nodes until only the oldest (first-created) node remains. -/
def destroy_to_first : List Nat → List Nat
  | [] => []
  | [b] => [b]
  | _ :: b :: rest => destroy_to_first (b :: rest)

/-- The driver's `anv_ResetCommandBuffer`: free every chain node after the
first in both chains, rewind both relocation lists to zero entries and
rewind the surface allocation cursor to 1. -/
def anv_ResetCommandBuffer (cb : anv_cmd_buffer_chains) : anv_cmd_buffer_chains :=
  { batch_bos := destroy_to_first cb.batch_bos
  , surface_bos := destroy_to_first cb.surface_bos
  , batch_num_relocs := 0
  , surface_num_relocs := 0
  , surface_next := 1 }

theorem destroy_to_first_length (l : List Nat) (h : l ≠ []) :
    (destroy_to_first l).length = 1 := by
  induction l with
  | nil => exact absurd rfl h
  | cons a rest ih =>
    cases rest with
    | nil => rfl
    | cons b rest2 =>
      rw [show destroy_to_first (a :: b :: rest2) = destroy_to_first (b :: rest2) from rfl]
      exact ih (by simp)

/-- Claim C7: resetting a command buffer whose chains are nonempty (in
particular when they have grown past one node) leaves exactly one node in
each chain, zero entries in both relocation lists, and the surface
allocation cursor rewound to 1. -/
theorem anv_ResetCommandBuffer_spec (cb : anv_cmd_buffer_chains)
    (hb : cb.batch_bos ≠ []) (hs : cb.surface_bos ≠ []) :
    (anv_ResetCommandBuffer cb).batch_bos.length = 1 ∧
    (anv_ResetCommandBuffer cb).surface_bos.length = 1 ∧
    (anv_ResetCommandBuffer cb).batch_num_relocs = 0 ∧
    (anv_ResetCommandBuffer cb).surface_num_relocs = 0 ∧
    (anv_ResetCommandBuffer cb).surface_next = 1 :=
  ⟨destroy_to_first_length cb.batch_bos hb, destroy_to_first_length cb.surface_bos hs,
    rfl, rfl, rfl⟩

/-- Witness for the C7 theorem: a command buffer whose primary chain grew to
three nodes and whose surface chain grew to two nodes. -/
theorem anv_ResetCommandBuffer_spec_witness :
    (anv_ResetCommandBuffer ⟨[3, 2, 1], [5, 4], 17, 9, 4096⟩).batch_bos.length = 1 ∧
    (anv_ResetCommandBuffer ⟨[3, 2, 1], [5, 4], 17, 9, 4096⟩).surface_bos.length = 1 ∧
    (anv_ResetCommandBuffer ⟨[3, 2, 1], [5, 4], 17, 9, 4096⟩).batch_num_relocs = 0 ∧
    (anv_ResetCommandBuffer ⟨[3, 2, 1], [5, 4], 17, 9, 4096⟩).surface_num_relocs = 0 ∧
    (anv_ResetCommandBuffer ⟨[3, 2, 1], [5, 4], 17, 9, 4096⟩).surface_next = 1 :=
  anv_ResetCommandBuffer_spec ⟨[3, 2, 1], [5, 4], 17, 9, 4096⟩ (by simp) (by simp)

/-! ## Submission object list construction (`anv_EndCommandBuffer`) -/

/-- The driver's `anv_cmd_buffer_add_bo`: append the block to the execution
object array unless it is already present (the source detects presence via
the block's cached submission index; within one `end` call, under the
device mutex, that test is exactly list membership). -/
def anv_cmd_buffer_add_bo (bos : List Nat) (bo : Nat) : List Nat :=
  if bo ∈ bos then bos else bos ++ [bo]

/-- Adding a list of blocks in order, one `anv_cmd_buffer_add_bo` each: this
is both the chain-walking loops and `anv_cmd_buffer_add_validate_bos`. -/
def anv_cmd_buffer_add_bo_list (bos : List Nat) (new : List Nat) : List Nat :=
  new.foldl anv_cmd_buffer_add_bo bos

/-- The object-array construction in `anv_EndCommandBuffer`, in source
order: the surface-state chain blocks (newest first, each with its
relocation slice), then the blocks referenced by the surface relocations,
then every primary chain block but the first (newest first), then the
blocks referenced by the batch relocations, and the very first
primary-chain block last. -/
def anv_EndCommandBuffer_exec_bos (surface_chain surface_targets
    prim_chain_rest batch_targets : List Nat) (first_batch_bo : Nat) : List Nat :=
  let l1 := anv_cmd_buffer_add_bo_list [] surface_chain
  let l2 := anv_cmd_buffer_add_bo_list l1 surface_targets
  let l3 := anv_cmd_buffer_add_bo_list l2 prim_chain_rest
  let l4 := anv_cmd_buffer_add_bo_list l3 batch_targets
  anv_cmd_buffer_add_bo l4 first_batch_bo

theorem add_bo_list_append (bos new : List Nat) :
    ∃ t, anv_cmd_buffer_add_bo_list bos new = bos ++ t ∧ ∀ x ∈ t, x ∈ new := by
  induction new generalizing bos with
  | nil => exact ⟨[], by simp [anv_cmd_buffer_add_bo_list]⟩
  | cons a rest ih =>
    rw [show anv_cmd_buffer_add_bo_list bos (a :: rest)
      = anv_cmd_buffer_add_bo_list (anv_cmd_buffer_add_bo bos a) rest from rfl]
    rcases ih (anv_cmd_buffer_add_bo bos a) with ⟨t, ht, hmem⟩
    by_cases hin : a ∈ bos
    · have hab : anv_cmd_buffer_add_bo bos a = bos := by
        rw [anv_cmd_buffer_add_bo, if_pos hin]
      refine ⟨t, ?_, fun x hx => List.mem_cons_of_mem a (hmem x hx)⟩
      rw [hab] at ht
      rw [hab, ht]
    · have hab : anv_cmd_buffer_add_bo bos a = bos ++ [a] := by
        rw [anv_cmd_buffer_add_bo, if_neg hin]
      refine ⟨a :: t, ?_, ?_⟩
      · rw [hab] at ht
        rw [hab, ht]
        simp
      · intro x hx
        rcases List.mem_cons.mp hx with hx | hx
        · simp [hx]
        · exact List.mem_cons_of_mem a (hmem x hx)

theorem mem_add_bo_list_of_mem {x : Nat} (bos new : List Nat) (h : x ∈ bos) :
    x ∈ anv_cmd_buffer_add_bo_list bos new := by
  rcases add_bo_list_append bos new with ⟨t, ht, _⟩
  rw [ht]
  exact List.mem_append_left t h

theorem mem_add_bo_list_of_mem_new {x : Nat} (bos new : List Nat) (h : x ∈ new) :
    x ∈ anv_cmd_buffer_add_bo_list bos new := by
  induction new generalizing bos with
  | nil => cases h
  | cons a rest ih =>
    rw [show anv_cmd_buffer_add_bo_list bos (a :: rest)
      = anv_cmd_buffer_add_bo_list (anv_cmd_buffer_add_bo bos a) rest from rfl]
    rcases List.mem_cons.mp h with h | h
    · subst h
      apply mem_add_bo_list_of_mem
      rw [anv_cmd_buffer_add_bo]
      by_cases hin : x ∈ bos <;> simp [hin]
    · exact ih _ h

theorem mem_of_mem_add_bo_list {x : Nat} {bos new : List Nat}
    (h : x ∈ anv_cmd_buffer_add_bo_list bos new) : x ∈ bos ∨ x ∈ new := by
  rcases add_bo_list_append bos new with ⟨t, ht, hmem⟩
  rw [ht] at h
  rcases List.mem_append.mp h with h | h
  · exact Or.inl h
  · exact Or.inr (hmem x h)

/-- Claim C1: in the execution object array built by `anv_EndCommandBuffer`,
the surface-chain blocks land before every primary-chain block, and the
very first primary-chain block is added last, so its submission index is
the total object count minus one. -/
theorem anv_EndCommandBuffer_exec_bos_spec
    (surface_chain surface_targets prim_chain_rest batch_targets : List Nat)
    (first_batch_bo : Nat)
    (hfp1 : first_batch_bo ∉ surface_chain) (hfp2 : first_batch_bo ∉ surface_targets)
    (hfp3 : first_batch_bo ∉ prim_chain_rest) (hfp4 : first_batch_bo ∉ batch_targets) :
    (∃ front, anv_EndCommandBuffer_exec_bos surface_chain surface_targets
        prim_chain_rest batch_targets first_batch_bo = front ++ [first_batch_bo] ∧
        first_batch_bo ∉ front) ∧
    (anv_EndCommandBuffer_exec_bos surface_chain surface_targets
        prim_chain_rest batch_targets first_batch_bo).indexOf first_batch_bo
      = (anv_EndCommandBuffer_exec_bos surface_chain surface_targets
        prim_chain_rest batch_targets first_batch_bo).length - 1 ∧
    (∀ s ∈ surface_chain,
      (anv_EndCommandBuffer_exec_bos surface_chain surface_targets
        prim_chain_rest batch_targets first_batch_bo).indexOf s
      < (anv_EndCommandBuffer_exec_bos surface_chain surface_targets
        prim_chain_rest batch_targets first_batch_bo).indexOf first_batch_bo) ∧
    (∀ s ∈ surface_chain, ∀ p ∈ prim_chain_rest, p ∉ surface_chain → p ∉ surface_targets →
      (anv_EndCommandBuffer_exec_bos surface_chain surface_targets
        prim_chain_rest batch_targets first_batch_bo).indexOf s
      < (anv_EndCommandBuffer_exec_bos surface_chain surface_targets
        prim_chain_rest batch_targets first_batch_bo).indexOf p) := by
  set l1 := anv_cmd_buffer_add_bo_list [] surface_chain with hl1
  set l2 := anv_cmd_buffer_add_bo_list l1 surface_targets with hl2
  set l3 := anv_cmd_buffer_add_bo_list l2 prim_chain_rest with hl3
  set l4 := anv_cmd_buffer_add_bo_list l3 batch_targets with hl4
  have hfp_l4 : first_batch_bo ∉ l4 := by
    intro hmem
    rcases mem_of_mem_add_bo_list hmem with hmem | hmem
    · rcases mem_of_mem_add_bo_list hmem with hmem | hmem
      · rcases mem_of_mem_add_bo_list hmem with hmem | hmem
        · rcases mem_of_mem_add_bo_list hmem with hmem | hmem
          · cases hmem
          · exact hfp1 hmem
        · exact hfp2 hmem
      · exact hfp3 hmem
    · exact hfp4 hmem
  have hL : anv_EndCommandBuffer_exec_bos surface_chain surface_targets
      prim_chain_rest batch_targets first_batch_bo = l4 ++ [first_batch_bo] := by
    rw [anv_EndCommandBuffer_exec_bos, anv_cmd_buffer_add_bo, ← hl1, ← hl2, ← hl3, ← hl4]
    simp [hfp_l4]
  have hidx_fp : (l4 ++ [first_batch_bo]).indexOf first_batch_bo = l4.length := by
    rw [List.indexOf_append_of_not_mem hfp_l4, List.indexOf_cons_self]
    omega
  refine ⟨⟨l4, hL, hfp_l4⟩, ?_, ?_, ?_⟩
  · rw [hL, hidx_fp, List.length_append]
    simp only [List.length_singleton]
    omega
  · intro s hs
    have hs_l1 : s ∈ l1 := mem_add_bo_list_of_mem_new [] surface_chain hs
    have hs_l4 : s ∈ l4 := mem_add_bo_list_of_mem _ _
      (mem_add_bo_list_of_mem _ _ (mem_add_bo_list_of_mem _ _ hs_l1))
    rw [hL, hidx_fp, List.indexOf_append_of_mem hs_l4]
    exact List.indexOf_lt_length.mpr hs_l4
  · intro s hs p hp hp1 hp2
    have hs_l1 : s ∈ l1 := mem_add_bo_list_of_mem_new [] surface_chain hs
    have hp_not_l2 : p ∉ l2 := by
      intro hmem
      rcases mem_of_mem_add_bo_list hmem with hmem | hmem
      · rcases mem_of_mem_add_bo_list hmem with hmem | hmem
        · cases hmem
        · exact hp1 hmem
      · exact hp2 hmem
    rcases add_bo_list_append l1 surface_targets with ⟨t2, ht2, _⟩
    rcases add_bo_list_append l2 prim_chain_rest with ⟨t3, ht3, _⟩
    rcases add_bo_list_append l3 batch_targets with ⟨t4, ht4, _⟩
    have hL2 : anv_EndCommandBuffer_exec_bos surface_chain surface_targets
        prim_chain_rest batch_targets first_batch_bo = l2 ++ (t3 ++ t4 ++ [first_batch_bo]) := by
      rw [hL, hl4, ht4, hl3, ht3]
      simp
    have hs_l2 : s ∈ l2 := mem_add_bo_list_of_mem _ _ hs_l1
    have hidx_s : (anv_EndCommandBuffer_exec_bos surface_chain surface_targets
        prim_chain_rest batch_targets first_batch_bo).indexOf s < l2.length := by
      rw [hL2, List.indexOf_append_of_mem hs_l2]
      exact List.indexOf_lt_length.mpr hs_l2
    have hidx_p : l2.length ≤ (anv_EndCommandBuffer_exec_bos surface_chain surface_targets
        prim_chain_rest batch_targets first_batch_bo).indexOf p := by
      rw [hL2, List.indexOf_append_of_not_mem hp_not_l2]
      omega
    omega

/-- Witness for the C1 theorem: the spec's scenario of a primary chain with
three nodes (ids 2, 1 newest-first past the first node 0) and a surface
chain with one node (id 10); the resulting array has length at least 4 and
the very first primary-chain block lands at the last index. -/
theorem anv_EndCommandBuffer_exec_bos_spec_witness :
    4 ≤ (anv_EndCommandBuffer_exec_bos [10] [] [2, 1] [] 0).length ∧
    ((∃ front, anv_EndCommandBuffer_exec_bos [10] [] [2, 1] [] 0 = front ++ [0] ∧
        (0 : Nat) ∉ front) ∧
    (anv_EndCommandBuffer_exec_bos [10] [] [2, 1] [] 0).indexOf 0
      = (anv_EndCommandBuffer_exec_bos [10] [] [2, 1] [] 0).length - 1 ∧
    (∀ s ∈ [10], (anv_EndCommandBuffer_exec_bos [10] [] [2, 1] [] 0).indexOf s
      < (anv_EndCommandBuffer_exec_bos [10] [] [2, 1] [] 0).indexOf 0) ∧
    (∀ s ∈ [10], ∀ p ∈ [2, 1], p ∉ [10] → p ∉ ([] : List Nat) →
      (anv_EndCommandBuffer_exec_bos [10] [] [2, 1] [] 0).indexOf s
      < (anv_EndCommandBuffer_exec_bos [10] [] [2, 1] [] 0).indexOf p)) :=
  ⟨by decide, anv_EndCommandBuffer_exec_bos_spec [10] [] [2, 1] [] 0
    (by decide) (by decide) (by decide) (by decide)⟩

/-! ## Relocation processing and the no-relocation fast path -/

/-- Execution flags from the kernel uapi header (outside `src/`):
`I915_EXEC_RENDER`, `I915_EXEC_NO_RELOC` and `I915_EXEC_HANDLE_LUT`. -/
def I915_EXEC_RENDER : Nat := 2

/-- See `I915_EXEC_RENDER`. -/
def I915_EXEC_NO_RELOC : Nat := 2 ^ 11

/-- See `I915_EXEC_RENDER`. -/
def I915_EXEC_HANDLE_LUT : Nat := 2 ^ 12

/-- The loop of `anv_cmd_buffer_process_relocs` as far as `need_reloc` is
concerned: walk the list and set the flag whenever a target block's current
base address (`bo_offset bo`) differs from the entry's recorded
`presumed_offset`.  `bo_offset` maps block ids to their current address. -/
def anv_cmd_buffer_process_relocs (bo_offset : Nat → Nat) (need_reloc : Bool)
    (list : anv_reloc_list) : Bool :=
  (list.relocs.zip list.reloc_bos).foldl
    (fun need er => if bo_offset er.2 ≠ er.1.presumed_offset then true else need) need_reloc

/-- The `execbuf.flags` computation at the end of `anv_EndCommandBuffer`:
`need_reloc` starts false, both relocation lists are processed (surface
list first), and `I915_EXEC_NO_RELOC` is added exactly when the flag stayed
false. -/
def anv_EndCommandBuffer_execbuf_flags (bo_offset : Nat → Nat)
    (surface_relocs batch_relocs : anv_reloc_list) : Nat :=
  let need_reloc := anv_cmd_buffer_process_relocs bo_offset
    (anv_cmd_buffer_process_relocs bo_offset false surface_relocs) batch_relocs
  let flags := I915_EXEC_HANDLE_LUT
  let flags := if need_reloc = false then flags ||| I915_EXEC_NO_RELOC else flags
  flags ||| I915_EXEC_RENDER

theorem process_relocs_eq_or_any (bo_offset : Nat → Nat) (need : Bool)
    (list : anv_reloc_list) :
    anv_cmd_buffer_process_relocs bo_offset need list
      = (need || (list.relocs.zip list.reloc_bos).any
          (fun er => bo_offset er.2 ≠ er.1.presumed_offset)) := by
  unfold anv_cmd_buffer_process_relocs
  generalize list.relocs.zip list.reloc_bos = pairs
  induction pairs generalizing need with
  | nil => simp
  | cons a rest ih =>
    rw [List.foldl_cons, List.any_cons, ih]
    by_cases h : bo_offset a.2 ≠ a.1.presumed_offset
    · simp [h]
    · simp [h]

/-- Claim C2: the built submission carries `I915_EXEC_NO_RELOC` if and only
if every entry of the surface relocation list and of the batch relocation
list has its target block's current base address equal to the recorded
presumed address. -/
theorem anv_EndCommandBuffer_no_reloc_iff (bo_offset : Nat → Nat)
    (surface_relocs batch_relocs : anv_reloc_list) :
    (anv_EndCommandBuffer_execbuf_flags bo_offset surface_relocs batch_relocs
        &&& I915_EXEC_NO_RELOC) ≠ 0 ↔
    ((∀ er ∈ surface_relocs.relocs.zip surface_relocs.reloc_bos,
        bo_offset er.2 = er.1.presumed_offset) ∧
     (∀ er ∈ batch_relocs.relocs.zip batch_relocs.reloc_bos,
        bo_offset er.2 = er.1.presumed_offset)) := by
  unfold anv_EndCommandBuffer_execbuf_flags
  rw [process_relocs_eq_or_any, process_relocs_eq_or_any]
  simp only [Bool.false_or]
  set sa := (surface_relocs.relocs.zip surface_relocs.reloc_bos).any
    (fun er => bo_offset er.2 ≠ er.1.presumed_offset) with hsa
  set ba := (batch_relocs.relocs.zip batch_relocs.reloc_bos).any
    (fun er => bo_offset er.2 ≠ er.1.presumed_offset) with hba
  by_cases h : (sa || ba) = false
  · rw [if_pos h]
    have hnum : (I915_EXEC_HANDLE_LUT ||| I915_EXEC_NO_RELOC ||| I915_EXEC_RENDER)
        &&& I915_EXEC_NO_RELOC ≠ 0 := by decide
    rcases Bool.or_eq_false_iff.mp h with ⟨h1, h2⟩
    refine iff_of_true hnum ⟨?_, ?_⟩
    · intro er he
      have := List.any_eq_false.mp (hsa ▸ h1) er he
      simpa using this
    · intro er he
      have := List.any_eq_false.mp (hba ▸ h2) er he
      simpa using this
  · rw [if_neg h]
    have hnum0 : (I915_EXEC_HANDLE_LUT ||| I915_EXEC_RENDER) &&& I915_EXEC_NO_RELOC = 0 := by
      decide
    refine iff_of_false (by simp [hnum0]) ?_
    rintro ⟨h1, h2⟩
    apply h
    apply Bool.or_eq_false_iff.mpr
    constructor
    · rw [hsa]
      apply List.any_eq_false.mpr
      intro er he
      simpa using h1 er he
    · rw [hba]
      apply List.any_eq_false.mpr
      intro er he
      simpa using h2 er he

/-! ## Descriptor sets, surface views and the flush-state protocol

The per-draw flush (`flush_descriptor_sets` and its helpers in
`src/vulkan/device.c`) is embedded as a state-passing function over the
surface-state block, the dynamic-state stream and the recorded writes.
Backing blocks and precomputed `SURFACE_STATE` records are identified by
numeric ids. -/

/-- Value of `VK_SHADER_STAGE_FRAGMENT` in the API enumeration (header
outside `src/`); only its distinctness from the other stage numbers
matters here. -/
def VK_SHADER_STAGE_FRAGMENT : Nat := 4

/-- The fixed bias of render-target slots at the start of the fragment
binding table (`MAX_RTS`, from a driver header outside `src/`). -/
def MAX_RTS : Nat := 8

/-- The fields of `struct anv_surface_view` the flush reads. -/
structure anv_surface_view where
  bo : Nat
  offset : Nat
  range : Nat
  format : Nat
  surface_state : Nat
deriving DecidableEq, Repr

/-- One descriptor-set slot: a view and/or a sampler reference, either of
which may be NULL (a zero-initialized hole has both absent). -/
structure anv_descriptor where
  view : Option anv_surface_view
  sampler : Option Nat
deriving DecidableEq, Repr

/-- The zero-initialized descriptor (an unwritten hole). -/
def anv_descriptor.null : anv_descriptor := ⟨none, none⟩

/-- One `struct anv_descriptor_slot` of a set layout's per-stage slot
table: the descriptor index and the dynamic-offset slot (negative when the
binding carries no dynamic offset). -/
structure anv_descriptor_slot where
  index : Nat
  dynamic_slot : Int
deriving DecidableEq, Repr

/-- A bound descriptor set together with its recorded dynamic offsets
(`cmd_buffer->descriptors[set]`). -/
structure anv_descriptor_set_binding where
  descriptors : List anv_descriptor
  dynamic_offsets : List Nat
deriving DecidableEq, Repr

/-- The per-stage slice of a set layout: the surface and sampler slot
tables (`set_layout->stage[stage]`). -/
structure anv_descriptor_set_layout_stage where
  surface_slots : List anv_descriptor_slot
  sampler_slots : List anv_descriptor_slot
deriving DecidableEq, Repr

/-- One pipeline-layout set entry for one stage: the set layout's stage
slice and the start indices of this set's slots inside the stage's tables
(`layout->set[set].surface_start[stage]` and `.sampler_start[stage]`),
paired below with the descriptor set bound at the same set index. -/
structure anv_pipeline_layout_set_stage where
  set_layout : anv_descriptor_set_layout_stage
  surface_start : Nat
  sampler_start : Nat
deriving DecidableEq, Repr

/-- The per-stage slice of a pipeline layout, with the bound descriptor
sets zipped in (`layout->set[i]` with `cmd_buffer->descriptors[i]`). -/
structure anv_pipeline_layout_stage where
  sets : List (anv_descriptor_set_binding × anv_pipeline_layout_set_stage)
  surface_count : Nat
  sampler_count : Nat
deriving DecidableEq, Repr

/-- The fields of a color attachment view the render-target loop reads. -/
structure anv_color_attachment_view where
  bo : Nat
  offset : Nat
  surface_state : Nat
deriving DecidableEq, Repr

/-- Everything one stage's `flush_descriptor_set` call reads: the stage
number, the subpass color attachments (used only by the fragment stage)
and the (possibly NULL) pipeline layout slice for this stage. -/
structure stage_flush_input where
  stage : Nat
  color_attachments : List anv_color_attachment_view
  layout : Option anv_pipeline_layout_stage
deriving DecidableEq, Repr

/-- What a freshly allocated per-draw `SURFACE_STATE` record holds: either
the result of `fill_buffer_surface_state format offset range` or a
verbatim copy (`memcpy`) of a precomputed record. -/
inductive SurfContent where
  | filled (format offset range : Nat)
  | copied (surface_state : Nat)
deriving DecidableEq, Repr

/-- A `SURFACE_STATE` record written into the surface block. -/
structure SurfWrite where
  state_offset : Nat
  content : SurfContent
deriving DecidableEq, Repr

/-- Packets the flush emits into the primary batch. -/
inductive BatchEvent where
  | state_base_address
  | pipe_control_texture_cache_invalidate
  | sampler_state_pointers (stage offset : Nat)
  | binding_table_pointers (stage offset : Nat)
deriving DecidableEq, Repr

/-- The command-buffer state the flush protocol reads and writes: the
surface-state block cursor/size, the length of the surface chain, the
dynamic-state stream cursor, and the recorded relocations, `SURFACE_STATE`
writes, binding-table writes (table offset, slot, state offset),
sampler-table writes (table offset, slot, sampler id) and batch packets. -/
structure FlushState where
  surface_next : Nat
  surface_bo_size : Nat
  surface_bo_chain_len : Nat
  dyn_next : Nat
  surface_relocs : List (Nat × Nat × Nat)
  surface_writes : List SurfWrite
  bt_writes : List (Nat × Nat × Nat)
  sampler_writes : List (Nat × Nat × Nat)
  batch_events : List BatchEvent
deriving DecidableEq, Repr

/-- Subtraction in `uint32_t` arithmetic. -/
def sub_u32 (a b : Nat) : Nat := u32 (a + (U32_LIMIT - u32 b))

/-- `anv_cmd_buffer_alloc_surface_state` acting on a `FlushState`. -/
def flush_alloc_surface_state (st : FlushState) (size alignment : Nat) :
    anv_state × FlushState :=
  let r := anv_cmd_buffer_alloc_surface_state st.surface_next st.surface_bo_size size alignment
  (r.1, { st with surface_next := r.2 })

/-- Modelled from the spec: `anv_state_stream_alloc` (the allocator source
file is not under `src/`); per §4.2 a stream allocation is a pool
allocation without individual free, and the stream grows its backing pool,
so in this model it always returns a valid state. -/
def anv_state_stream_alloc (st : FlushState) (size alignment : Nat) :
    anv_state × FlushState :=
  let offset := align_u32 st.dyn_next alignment
  (⟨some offset, offset, size⟩, { st with dyn_next := offset + size })

/-- The render-target loop of `cmd_buffer_emit_binding_table`: copy each
color attachment's precomputed record into a fresh 64-byte per-draw slot,
record a relocation for the embedded address at byte 8*4 of the record,
and write the slot offset into binding-table entry `a`. -/
def cmd_buffer_emit_binding_table_rts (st : FlushState) (bt_off : Nat)
    (attachments : List anv_color_attachment_view) (a : Nat) :
    Except (VkResult × FlushState) FlushState :=
  match attachments with
  | [] => Except.ok st
  | view :: rest =>
    let r := flush_alloc_surface_state st 64 64
    match r.1.map with
    | none => Except.error (VkResult.error_out_of_device_memory, r.2)
    | some _ =>
      let st2 := { r.2 with
        surface_writes := r.2.surface_writes ++ [⟨r.1.offset, SurfContent.copied view.surface_state⟩]
        , surface_relocs := r.2.surface_relocs ++ [(r.1.offset + 8 * 4, view.bo, view.offset)]
        , bt_writes := r.2.bt_writes ++ [(bt_off, a, r.1.offset)] }
      cmd_buffer_emit_binding_table_rts st2 bt_off rest (a + 1)

/-- The descriptor loop body of `cmd_buffer_emit_binding_table` over one
set's surface slots: NULL views are skipped; a slot with a dynamic-offset
index rebuilds the record via `fill_buffer_surface_state` at
`view->offset + dynamic_offset` with range `view->range - dynamic_offset`,
any other slot copies the precomputed record verbatim; either way a fresh
relocation for the embedded address is recorded and the slot offset is
written into binding-table entry `start + b`. -/
def cmd_buffer_emit_binding_table_slots (st : FlushState) (bt_off : Nat)
    (d : anv_descriptor_set_binding) (slots : List anv_descriptor_slot)
    (start b : Nat) : Except (VkResult × FlushState) FlushState :=
  match slots with
  | [] => Except.ok st
  | slot :: rest =>
    match (d.descriptors.getD slot.index anv_descriptor.null).view with
    | none => cmd_buffer_emit_binding_table_slots st bt_off d rest start (b + 1)
    | some view =>
      let r := flush_alloc_surface_state st 64 64
      match r.1.map with
      | none => Except.error (VkResult.error_out_of_device_memory, r.2)
      | some _ =>
        let cd :=
          if 0 ≤ slot.dynamic_slot then
            let dynamic_offset := d.dynamic_offsets.getD slot.dynamic_slot.toNat 0
            (SurfContent.filled view.format (u32 (view.offset + dynamic_offset))
              (sub_u32 view.range dynamic_offset), u32 (view.offset + dynamic_offset))
          else
            (SurfContent.copied view.surface_state, view.offset)
        let st2 := { r.2 with
          surface_writes := r.2.surface_writes ++ [⟨r.1.offset, cd.1⟩]
          , surface_relocs := r.2.surface_relocs ++ [(r.1.offset + 8 * 4, view.bo, cd.2)]
          , bt_writes := r.2.bt_writes ++ [(bt_off, start + b, r.1.offset)] }
        cmd_buffer_emit_binding_table_slots st2 bt_off d rest start (b + 1)

/-- The outer set loop of `cmd_buffer_emit_binding_table`. -/
def cmd_buffer_emit_binding_table_sets (st : FlushState) (bt_off bias : Nat)
    (sets : List (anv_descriptor_set_binding × anv_pipeline_layout_set_stage)) :
    Except (VkResult × FlushState) FlushState :=
  match sets with
  | [] => Except.ok st
  | (d, ls) :: rest =>
    match cmd_buffer_emit_binding_table_slots st bt_off d ls.set_layout.surface_slots
        (bias + ls.surface_start) 0 with
    | Except.error e => Except.error e
    | Except.ok st1 => cmd_buffer_emit_binding_table_sets st1 bt_off bias rest

/-- The driver's `cmd_buffer_emit_binding_table`: a fragment stage biases
the table by `MAX_RTS` render-target slots and walks the subpass color
attachments first; a stage with nothing to bind returns success without
allocating; otherwise the table is allocated from the surface block
(failure is out-of-device-memory) and the slots are filled.  Returns the
updated state and the table's `anv_state`. -/
def cmd_buffer_emit_binding_table (st : FlushState) (inp : stage_flush_input) :
    Except (VkResult × FlushState) (FlushState × anv_state) :=
  let bias := if inp.stage = VK_SHADER_STAGE_FRAGMENT then MAX_RTS else 0
  let attachments := if inp.stage = VK_SHADER_STAGE_FRAGMENT then inp.color_attachments else []
  let surface_count := match inp.layout with
    | none => 0
    | some l => l.surface_count
  if attachments.length + surface_count = 0 then
    Except.ok (st, anv_state.zero)
  else
    let r := flush_alloc_surface_state st ((bias + surface_count) * 4) 32
    match r.1.map with
    | none => Except.error (VkResult.error_out_of_device_memory, r.2)
    | some _ =>
      match cmd_buffer_emit_binding_table_rts r.2 r.1.offset attachments 0 with
      | Except.error e => Except.error e
      | Except.ok st2 =>
        match inp.layout with
        | none => Except.ok (st2, r.1)
        | some l =>
          match cmd_buffer_emit_binding_table_sets st2 r.1.offset bias l.sets with
          | Except.error e => Except.error e
          | Except.ok st3 => Except.ok (st3, r.1)

/-- The sampler loop of `cmd_buffer_emit_samplers` over one set's sampler
slots: NULL samplers are skipped, every other slot has its 16-byte sampler
record copied into table entry `start + b`. -/
def cmd_buffer_emit_samplers_slots (st : FlushState) (tbl : Nat)
    (d : anv_descriptor_set_binding) (slots : List anv_descriptor_slot)
    (start b : Nat) : FlushState :=
  match slots with
  | [] => st
  | slot :: rest =>
    match (d.descriptors.getD slot.index anv_descriptor.null).sampler with
    | none => cmd_buffer_emit_samplers_slots st tbl d rest start (b + 1)
    | some sampler =>
      cmd_buffer_emit_samplers_slots
        { st with sampler_writes := st.sampler_writes ++ [(tbl, start + b, sampler)] }
        tbl d rest start (b + 1)

/-- The outer set loop of `cmd_buffer_emit_samplers`. -/
def cmd_buffer_emit_samplers_sets (st : FlushState) (tbl : Nat)
    (sets : List (anv_descriptor_set_binding × anv_pipeline_layout_set_stage)) : FlushState :=
  match sets with
  | [] => st
  | (d, ls) :: rest =>
    cmd_buffer_emit_samplers_sets
      (cmd_buffer_emit_samplers_slots st tbl d ls.set_layout.sampler_slots ls.sampler_start 0)
      tbl rest

/-- The driver's `cmd_buffer_emit_samplers`: a stage needing no samplers
returns success without allocating; otherwise a table of 16 bytes per
sampler is allocated from the dynamic-state stream and filled. -/
def cmd_buffer_emit_samplers (st : FlushState) (inp : stage_flush_input) :
    Except (VkResult × FlushState) (FlushState × anv_state) :=
  let sampler_count := match inp.layout with
    | none => 0
    | some l => l.sampler_count
  if sampler_count = 0 then
    Except.ok (st, anv_state.zero)
  else
    let r := anv_state_stream_alloc st (sampler_count * 16) 32
    match inp.layout with
    | none => Except.ok (r.2, r.1)
    | some l => Except.ok (cmd_buffer_emit_samplers_sets r.2 r.1.offset l.sets, r.1)

/-- The driver's `flush_descriptor_set`: emit the sampler table then the
binding table for one stage, then the per-stage pointer packets for each
non-empty table. -/
def flush_descriptor_set (st : FlushState) (inp : stage_flush_input) :
    Except (VkResult × FlushState) FlushState :=
  match cmd_buffer_emit_samplers st inp with
  | Except.error e => Except.error e
  | Except.ok (st1, samplers) =>
    match cmd_buffer_emit_binding_table st1 inp with
    | Except.error e => Except.error e
    | Except.ok (st2, surfaces) =>
      let st3 := if 0 < samplers.alloc_size then
          { st2 with batch_events := st2.batch_events
              ++ [BatchEvent.sampler_state_pointers inp.stage samplers.offset] }
        else st2
      let st4 := if 0 < surfaces.alloc_size then
          { st3 with batch_events := st3.batch_events
              ++ [BatchEvent.binding_table_pointers inp.stage surfaces.offset] }
        else st3
      Except.ok st4

/-- The bound graphics pipeline as the flush sees it: the active-stage
bitmask and, per stage number, that stage's flush input. -/
structure anv_pipeline_flush_input where
  active_stages : Nat
  stages : Nat → stage_flush_input

/-- Modelled from the spec: the `for_each_bit` macro (driver header outside
`src/`) visits the set bits of a 32-bit mask in ascending order. -/
def for_each_bit_list (mask : Nat) : List Nat :=
  (List.range 32).filter (fun b => mask.testBit b)

/-- The stage loop of `flush_descriptor_sets`; the source breaks out of the
loop at the first failure, which the error return models. -/
def flush_descriptor_sets_loop (st : FlushState) (pipe : anv_pipeline_flush_input) :
    List Nat → Except (VkResult × FlushState) FlushState
  | [] => Except.ok st
  | s :: rest =>
    match flush_descriptor_set st (pipe.stages s) with
    | Except.error e => Except.error e
    | Except.ok st1 => flush_descriptor_sets_loop st1 pipe rest

/-- The driver's `anv_cmd_buffer_new_surface_state_bo`: close out the old
surface block, link a fresh block (same pool, same size) with its cursor
at 1, and re-emit the state-base-address packet followed by a texture-cache
invalidation into the primary batch. -/
def anv_cmd_buffer_new_surface_state_bo (st : FlushState) : FlushState :=
  { st with
    surface_bo_chain_len := st.surface_bo_chain_len + 1,
    surface_next := 1,
    batch_events := st.batch_events
      ++ [BatchEvent.state_base_address, BatchEvent.pipe_control_texture_cache_invalidate] }

/-- Outcome of `flush_descriptor_sets`: the function itself returns void;
a failed `assert` in its recovery path aborts (modelled as `fatal`), and
on the normal path it leaves an updated state and dirty mask. -/
inductive FlushOutcome where
  | ok (st : FlushState) (descriptors_dirty : Nat)
  | fatal
deriving DecidableEq, Repr

/-- The driver's `flush_descriptor_sets`: flush every dirty-and-active
stage; on the first failure assert it was device-pool exhaustion, open a
fresh surface-state block and retry every active stage, asserting success;
finally clear the active stages from the dirty mask. -/
def flush_descriptor_sets (st : FlushState) (pipe : anv_pipeline_flush_input)
    (descriptors_dirty : Nat) : FlushOutcome :=
  match flush_descriptor_sets_loop st pipe
      (for_each_bit_list (descriptors_dirty &&& pipe.active_stages)) with
  | Except.ok st1 =>
    FlushOutcome.ok st1 (descriptors_dirty &&& not_u32 pipe.active_stages)
  | Except.error (r, st1) =>
    if r ≠ VkResult.error_out_of_device_memory then FlushOutcome.fatal
    else
      match flush_descriptor_sets_loop (anv_cmd_buffer_new_surface_state_bo st1) pipe
          (for_each_bit_list pipe.active_stages) with
      | Except.ok st3 =>
        FlushOutcome.ok st3 (descriptors_dirty &&& not_u32 pipe.active_stages)
      | Except.error _ => FlushOutcome.fatal

theorem emit_binding_table_rts_error {st : FlushState} {bt_off : Nat}
    {attachments : List anv_color_attachment_view} {a : Nat} {r : VkResult} {st1 : FlushState}
    (h : cmd_buffer_emit_binding_table_rts st bt_off attachments a = Except.error (r, st1)) :
    r = VkResult.error_out_of_device_memory := by
  induction attachments generalizing st a with
  | nil =>
    rw [cmd_buffer_emit_binding_table_rts] at h
    exact Except.noConfusion h
  | cons view rest ih =>
    rw [cmd_buffer_emit_binding_table_rts] at h
    simp only [] at h
    split at h
    · simp only [Except.error.injEq, Prod.mk.injEq] at h
      exact h.1.symm
    · exact ih h

theorem emit_binding_table_slots_error {st : FlushState} {bt_off : Nat}
    {d : anv_descriptor_set_binding} {slots : List anv_descriptor_slot}
    {start b : Nat} {r : VkResult} {st1 : FlushState}
    (h : cmd_buffer_emit_binding_table_slots st bt_off d slots start b = Except.error (r, st1)) :
    r = VkResult.error_out_of_device_memory := by
  induction slots generalizing st b with
  | nil =>
    rw [cmd_buffer_emit_binding_table_slots] at h
    exact Except.noConfusion h
  | cons slot rest ih =>
    rw [cmd_buffer_emit_binding_table_slots] at h
    simp only [] at h
    split at h
    · exact ih h
    · split at h
      · simp only [Except.error.injEq, Prod.mk.injEq] at h
        exact h.1.symm
      · exact ih h

theorem emit_binding_table_sets_error {st : FlushState} {bt_off bias : Nat}
    {sets : List (anv_descriptor_set_binding × anv_pipeline_layout_set_stage)}
    {r : VkResult} {st1 : FlushState}
    (h : cmd_buffer_emit_binding_table_sets st bt_off bias sets = Except.error (r, st1)) :
    r = VkResult.error_out_of_device_memory := by
  induction sets generalizing st with
  | nil =>
    rw [cmd_buffer_emit_binding_table_sets] at h
    exact Except.noConfusion h
  | cons p rest ih =>
    obtain ⟨d, ls⟩ := p
    rw [cmd_buffer_emit_binding_table_sets] at h
    split at h
    · rename_i e heq
      simp only [Except.error.injEq] at h
      subst h
      exact emit_binding_table_slots_error heq
    · exact ih h

theorem emit_binding_table_error {st : FlushState} {inp : stage_flush_input}
    {r : VkResult} {st1 : FlushState}
    (h : cmd_buffer_emit_binding_table st inp = Except.error (r, st1)) :
    r = VkResult.error_out_of_device_memory := by
  rw [cmd_buffer_emit_binding_table] at h
  simp only [] at h
  repeat' split at h
  all_goals
    first
      | exact Except.noConfusion h
      | (simp only [Except.error.injEq, Prod.mk.injEq] at h
         exact h.1.symm)
      | (rename_i e heq
         simp only [Except.error.injEq] at h
         subst h
         first
           | exact emit_binding_table_rts_error heq
           | exact emit_binding_table_sets_error heq)

theorem emit_samplers_ne_error (st : FlushState) (inp : stage_flush_input)
    (e : VkResult × FlushState) : cmd_buffer_emit_samplers st inp ≠ Except.error e := by
  rw [cmd_buffer_emit_samplers]
  intro h
  simp only [] at h
  split at h
  · exact Except.noConfusion h
  · split at h
    · exact Except.noConfusion h
    · exact Except.noConfusion h

theorem flush_descriptor_set_error {st : FlushState} {inp : stage_flush_input}
    {r : VkResult} {st1 : FlushState}
    (h : flush_descriptor_set st inp = Except.error (r, st1)) :
    r = VkResult.error_out_of_device_memory := by
  rw [flush_descriptor_set] at h
  split at h
  · rename_i e heq
    exact absurd heq (emit_samplers_ne_error st inp e)
  · split at h
    · rename_i e heq
      simp only [Except.error.injEq] at h
      subst h
      exact emit_binding_table_error heq
    · simp only [] at h
      exact Except.noConfusion h

theorem flush_descriptor_sets_loop_error {pipe : anv_pipeline_flush_input}
    {stages : List Nat} {st : FlushState} {r : VkResult} {st1 : FlushState}
    (h : flush_descriptor_sets_loop st pipe stages = Except.error (r, st1)) :
    r = VkResult.error_out_of_device_memory := by
  induction stages generalizing st with
  | nil =>
    rw [flush_descriptor_sets_loop] at h
    exact Except.noConfusion h
  | cons s rest ih =>
    rw [flush_descriptor_sets_loop] at h
    split at h
    · rename_i e heq
      simp only [Except.error.injEq] at h
      subst h
      exact flush_descriptor_set_error heq
    · exact ih h

/-- Claim C3: if the flush of the dirty-and-active stages fails, the only
possible failure is surface-block exhaustion (out of device memory); the
recovery path opens a fresh surface-state block (chain grows by one, cursor
rewound to 1) and re-emits the state-base-address packet, then retries the
flush for every stage of the active mask — a superset of all
currently-dirty flushed stages, not just the failed one — and a failure
during the retry is the fatal (assertion) outcome, not a returned status. -/
theorem flush_descriptor_sets_exhaustion_recovery
    (st : FlushState) (pipe : anv_pipeline_flush_input) (descriptors_dirty : Nat)
    (r : VkResult) (st1 : FlushState)
    (hfail : flush_descriptor_sets_loop st pipe
        (for_each_bit_list (descriptors_dirty &&& pipe.active_stages))
      = Except.error (r, st1)) :
    r = VkResult.error_out_of_device_memory ∧
    (anv_cmd_buffer_new_surface_state_bo st1).surface_bo_chain_len
      = st1.surface_bo_chain_len + 1 ∧
    (anv_cmd_buffer_new_surface_state_bo st1).surface_next = 1 ∧
    (anv_cmd_buffer_new_surface_state_bo st1).batch_events = st1.batch_events
      ++ [BatchEvent.state_base_address, BatchEvent.pipe_control_texture_cache_invalidate] ∧
    flush_descriptor_sets st pipe descriptors_dirty
      = (match flush_descriptor_sets_loop (anv_cmd_buffer_new_surface_state_bo st1) pipe
            (for_each_bit_list pipe.active_stages) with
          | Except.ok st3 =>
            FlushOutcome.ok st3 (descriptors_dirty &&& not_u32 pipe.active_stages)
          | Except.error _ => FlushOutcome.fatal) ∧
    (∀ s, s ∈ for_each_bit_list (descriptors_dirty &&& pipe.active_stages) →
        s ∈ for_each_bit_list pipe.active_stages) := by
  have hr : r = VkResult.error_out_of_device_memory := flush_descriptor_sets_loop_error hfail
  subst hr
  refine ⟨rfl, rfl, rfl, rfl, ?_, ?_⟩
  · rw [flush_descriptor_sets, hfail]
    simp only [ne_eq, not_true_eq_false, reduceIte]
  · intro s hs
    simp only [for_each_bit_list, List.mem_filter, List.mem_range] at hs ⊢
    refine ⟨hs.1, ?_⟩
    have h2 := hs.2
    rw [Nat.testBit_and] at h2
    exact (Bool.and_eq_true _ _ |>.mp h2).2

/-- Witness for the C3 theorem: a vertex-stage binding table of one slot
cannot be allocated from an 8-byte surface block, so the first flush pass
fails with out-of-device-memory and the recovery equation applies. -/
theorem flush_descriptor_sets_exhaustion_recovery_witness :
    VkResult.error_out_of_device_memory = VkResult.error_out_of_device_memory ∧
    (anv_cmd_buffer_new_surface_state_bo ⟨1, 8, 1, 0, [], [], [], [], []⟩).surface_bo_chain_len
      = (⟨1, 8, 1, 0, [], [], [], [], []⟩ : FlushState).surface_bo_chain_len + 1 ∧
    (anv_cmd_buffer_new_surface_state_bo ⟨1, 8, 1, 0, [], [], [], [], []⟩).surface_next = 1 ∧
    (anv_cmd_buffer_new_surface_state_bo ⟨1, 8, 1, 0, [], [], [], [], []⟩).batch_events
      = (⟨1, 8, 1, 0, [], [], [], [], []⟩ : FlushState).batch_events
      ++ [BatchEvent.state_base_address, BatchEvent.pipe_control_texture_cache_invalidate] ∧
    flush_descriptor_sets ⟨1, 8, 1, 0, [], [], [], [], []⟩
        ⟨1, fun _ => ⟨0, [], some ⟨[(⟨[⟨some ⟨5, 0, 64, 7, 900⟩, none⟩], []⟩,
          ⟨⟨[⟨0, -1⟩], []⟩, 0, 0⟩)], 1, 0⟩⟩⟩ 1
      = (match flush_descriptor_sets_loop
            (anv_cmd_buffer_new_surface_state_bo ⟨1, 8, 1, 0, [], [], [], [], []⟩)
            ⟨1, fun _ => ⟨0, [], some ⟨[(⟨[⟨some ⟨5, 0, 64, 7, 900⟩, none⟩], []⟩,
              ⟨⟨[⟨0, -1⟩], []⟩, 0, 0⟩)], 1, 0⟩⟩⟩
            (for_each_bit_list (1 : Nat)) with
          | Except.ok st3 => FlushOutcome.ok st3 ((1 : Nat) &&& not_u32 1)
          | Except.error _ => FlushOutcome.fatal) ∧
    (∀ s, s ∈ for_each_bit_list ((1 : Nat) &&& (1 : Nat)) →
        s ∈ for_each_bit_list (1 : Nat)) :=
  flush_descriptor_sets_exhaustion_recovery ⟨1, 8, 1, 0, [], [], [], [], []⟩
    ⟨1, fun _ => ⟨0, [], some ⟨[(⟨[⟨some ⟨5, 0, 64, 7, 900⟩, none⟩], []⟩,
      ⟨⟨[⟨0, -1⟩], []⟩, 0, 0⟩)], 1, 0⟩⟩⟩ 1
    VkResult.error_out_of_device_memory ⟨1, 8, 1, 0, [], [], [], [], []⟩ rfl

/-- Claim C5: a successful flush clears the descriptor-dirty bits for
exactly the stages in the bound pipeline's active-stage mask; every bit
outside that mask keeps its previous value. -/
theorem flush_descriptor_sets_clears_exactly_active
    (st : FlushState) (pipe : anv_pipeline_flush_input) (descriptors_dirty : Nat)
    (st1 : FlushState) (dirty1 : Nat)
    (hok : flush_descriptor_sets st pipe descriptors_dirty = FlushOutcome.ok st1 dirty1) :
    ∀ s, s < 32 →
      (pipe.active_stages.testBit s = true → dirty1.testBit s = false) ∧
      (pipe.active_stages.testBit s = false →
        dirty1.testBit s = descriptors_dirty.testBit s) := by
  have hd : dirty1 = descriptors_dirty &&& not_u32 pipe.active_stages := by
    rw [flush_descriptor_sets] at hok
    split at hok
    · exact (FlushOutcome.ok.injEq _ _ _ _ |>.mp hok).2.symm
    · split at hok
      · exact FlushOutcome.noConfusion hok
      · split at hok
        · exact (FlushOutcome.ok.injEq _ _ _ _ |>.mp hok).2.symm
        · exact FlushOutcome.noConfusion hok
  subst hd
  intro s hs
  constructor
  · intro hact
    rw [Nat.testBit_and, not_u32, Nat.testBit_xor, U32_LIMIT,
      Nat.testBit_two_pow_sub_one, hact]
    simp [hs]
  · intro hact
    rw [Nat.testBit_and, not_u32, Nat.testBit_xor, U32_LIMIT,
      Nat.testBit_two_pow_sub_one, hact]
    simp [hs]

/-- Witness for the C5 theorem: a pipeline whose active mask is stage 0
only, flushed with dirty mask `0b101`: bit 0 is cleared and bit 2 (outside
the active mask) keeps its former value. -/
theorem flush_descriptor_sets_clears_exactly_active_witness :
    ((5 : Nat) &&& not_u32 1).testBit 0 = false ∧
    ((5 : Nat) &&& not_u32 1).testBit 2 = (5 : Nat).testBit 2 :=
  ⟨(flush_descriptor_sets_clears_exactly_active ⟨1, 8192, 1, 0, [], [], [], [], []⟩
      ⟨1, fun _ => ⟨0, [], none⟩⟩ 5 ⟨1, 8192, 1, 0, [], [], [], [], []⟩ (5 &&& not_u32 1) rfl
      0 (by omega)).1 (by decide),
   (flush_descriptor_sets_clears_exactly_active ⟨1, 8192, 1, 0, [], [], [], [], []⟩
      ⟨1, fun _ => ⟨0, [], none⟩⟩ 5 ⟨1, 8192, 1, 0, [], [], [], [], []⟩ (5 &&& not_u32 1) rfl
      2 (by omega)).2 (by decide)⟩

theorem sub_u32_eq {a b : Nat} (hba : b ≤ a) (ha : a < U32_LIMIT) : sub_u32 a b = a - b := by
  have h32 : U32_LIMIT = 4294967296 := by norm_num [U32_LIMIT]
  simp only [sub_u32, u32, h32] at *
  omega

/-- Claim C4: processing one descriptor slot of the binding table: if the
slot carries a dynamic-offset index, the freshly allocated surface state is
built by `fill_buffer_surface_state` at address offset `view->offset + d`
with range `view->range - d` (where `d` is the caller-supplied runtime
offset for that index) and the recorded relocation delta is `view->offset
+ d`; a slot without a dynamic offset gets the view's precomputed surface
state copied verbatim with relocation delta `view->offset`.  In both cases
the slot's binding-table entry receives the new state's offset. -/
theorem cmd_buffer_emit_binding_table_slot_spec
    (st : FlushState) (bt_off : Nat) (d : anv_descriptor_set_binding)
    (slot : anv_descriptor_slot) (rest : List anv_descriptor_slot) (start b : Nat)
    (view : anv_surface_view)
    (hview : (d.descriptors.getD slot.index anv_descriptor.null).view = some view)
    (hfit : ¬ st.surface_bo_size < u32 (align_u32 st.surface_next 64 + 64)) :
    ∃ st2,
      cmd_buffer_emit_binding_table_slots st bt_off d (slot :: rest) start b
        = cmd_buffer_emit_binding_table_slots st2 bt_off d rest start (b + 1) ∧
      st2.bt_writes = st.bt_writes ++ [(bt_off, start + b, align_u32 st.surface_next 64)] ∧
      (∀ dynamic_offset,
        0 ≤ slot.dynamic_slot →
        dynamic_offset = d.dynamic_offsets.getD slot.dynamic_slot.toNat 0 →
        view.offset + dynamic_offset < U32_LIMIT →
        dynamic_offset ≤ view.range → view.range < U32_LIMIT →
        st2.surface_writes = st.surface_writes
          ++ [⟨align_u32 st.surface_next 64,
               SurfContent.filled view.format (view.offset + dynamic_offset)
                 (view.range - dynamic_offset)⟩] ∧
        st2.surface_relocs = st.surface_relocs
          ++ [(align_u32 st.surface_next 64 + 8 * 4, view.bo,
               view.offset + dynamic_offset)]) ∧
      (slot.dynamic_slot < 0 →
        st2.surface_writes = st.surface_writes
          ++ [⟨align_u32 st.surface_next 64, SurfContent.copied view.surface_state⟩] ∧
        st2.surface_relocs = st.surface_relocs
          ++ [(align_u32 st.surface_next 64 + 8 * 4, view.bo, view.offset)]) := by
  have halloc : flush_alloc_surface_state st 64 64
      = (⟨some (align_u32 st.surface_next 64), align_u32 st.surface_next 64, 64⟩,
         { st with surface_next := u32 (align_u32 st.surface_next 64 + 64) }) := by
    rw [flush_alloc_surface_state, anv_cmd_buffer_alloc_surface_state]
    simp only [hfit, if_false]
  by_cases hdyn : 0 ≤ slot.dynamic_slot
  · refine ⟨{
        surface_next := u32 (align_u32 st.surface_next 64 + 64),
        surface_bo_size := st.surface_bo_size,
        surface_bo_chain_len := st.surface_bo_chain_len,
        dyn_next := st.dyn_next,
        surface_relocs := st.surface_relocs ++ [(align_u32 st.surface_next 64 + 8 * 4, view.bo,
          u32 (view.offset + d.dynamic_offsets.getD slot.dynamic_slot.toNat 0))],
        surface_writes := st.surface_writes ++ [⟨align_u32 st.surface_next 64,
          SurfContent.filled view.format
            (u32 (view.offset + d.dynamic_offsets.getD slot.dynamic_slot.toNat 0))
            (sub_u32 view.range (d.dynamic_offsets.getD slot.dynamic_slot.toNat 0))⟩],
        bt_writes := st.bt_writes ++ [(bt_off, start + b, align_u32 st.surface_next 64)],
        sampler_writes := st.sampler_writes,
        batch_events := st.batch_events }, ?_, ?_, ?_, ?_⟩
    · rw [cmd_buffer_emit_binding_table_slots, hview]
      simp only [halloc, hdyn, ite_true]
    · exact rfl
    · intro dynamic_offset hd0 hdval hof hrange hr32
      have hu : u32 (view.offset + dynamic_offset) = view.offset + dynamic_offset :=
        u32_eq_of_lt hof
      have hsub : sub_u32 view.range dynamic_offset = view.range - dynamic_offset :=
        sub_u32_eq hrange hr32
      refine ⟨?_, ?_⟩
      · show st.surface_writes ++ [⟨align_u32 st.surface_next 64,
          SurfContent.filled view.format
            (u32 (view.offset + d.dynamic_offsets.getD slot.dynamic_slot.toNat 0))
            (sub_u32 view.range (d.dynamic_offsets.getD slot.dynamic_slot.toNat 0))⟩] = _
        rw [← hdval, hu, hsub]
      · show st.surface_relocs ++ [(align_u32 st.surface_next 64 + 8 * 4, view.bo,
          u32 (view.offset + d.dynamic_offsets.getD slot.dynamic_slot.toNat 0))] = _
        rw [← hdval, hu]
    · intro hneg
      exact absurd hdyn (by omega)
  · refine ⟨{
        surface_next := u32 (align_u32 st.surface_next 64 + 64),
        surface_bo_size := st.surface_bo_size,
        surface_bo_chain_len := st.surface_bo_chain_len,
        dyn_next := st.dyn_next,
        surface_relocs := st.surface_relocs ++ [(align_u32 st.surface_next 64 + 8 * 4, view.bo,
          view.offset)],
        surface_writes := st.surface_writes ++ [⟨align_u32 st.surface_next 64,
          SurfContent.copied view.surface_state⟩],
        bt_writes := st.bt_writes ++ [(bt_off, start + b, align_u32 st.surface_next 64)],
        sampler_writes := st.sampler_writes,
        batch_events := st.batch_events }, ?_, ?_, ?_, ?_⟩
    · rw [cmd_buffer_emit_binding_table_slots, hview]
      simp only [halloc, hdyn, ite_false]
    · exact rfl
    · intro dynamic_offset hd0 hdval hof hrange hr32
      exact absurd hd0 hdyn
    · intro hneg
      exact ⟨rfl, rfl⟩

/-- Witness for the C4 theorem at the spec's example: a buffer view of
range 1024 with runtime dynamic offset 256 flushes as offset `0 + 256` and
range `1024 - 256 = 768`. -/
theorem cmd_buffer_emit_binding_table_slot_spec_witness :
    ∃ st2,
      cmd_buffer_emit_binding_table_slots ⟨1, 8192, 1, 0, [], [], [], [], []⟩ 32
          ⟨[⟨some ⟨5, 0, 1024, 7, 900⟩, none⟩], [256]⟩ [⟨0, 0⟩] 8 0
        = cmd_buffer_emit_binding_table_slots st2 32
            ⟨[⟨some ⟨5, 0, 1024, 7, 900⟩, none⟩], [256]⟩ [] 8 (0 + 1) ∧
      st2.bt_writes = [] ++ [(32, 8 + 0, align_u32 1 64)] ∧
      (∀ dynamic_offset, (0 : Int) ≤ 0 → dynamic_offset = (256 : Nat) →
        0 + dynamic_offset < U32_LIMIT → dynamic_offset ≤ 1024 → (1024 : Nat) < U32_LIMIT →
        st2.surface_writes = [] ++ [⟨align_u32 1 64,
          SurfContent.filled 7 (0 + dynamic_offset) (1024 - dynamic_offset)⟩] ∧
        st2.surface_relocs = [] ++ [(align_u32 1 64 + 8 * 4, 5, 0 + dynamic_offset)]) ∧
      ((0 : Int) < 0 →
        st2.surface_writes = [] ++ [⟨align_u32 1 64, SurfContent.copied 900⟩] ∧
        st2.surface_relocs = [] ++ [(align_u32 1 64 + 8 * 4, 5, 0)]) :=
  cmd_buffer_emit_binding_table_slot_spec ⟨1, 8192, 1, 0, [], [], [], [], []⟩ 32
    ⟨[⟨some ⟨5, 0, 1024, 7, 900⟩, none⟩], [256]⟩ ⟨0, 0⟩ [] 8 0
    ⟨5, 0, 1024, 7, 900⟩ rfl (by decide)

theorem emit_binding_table_slots_holes (st : FlushState) (bt_off : Nat)
    (d : anv_descriptor_set_binding) (slots : List anv_descriptor_slot) (start b : Nat)
    (h : ∀ slot ∈ slots, (d.descriptors.getD slot.index anv_descriptor.null).view = none) :
    cmd_buffer_emit_binding_table_slots st bt_off d slots start b = Except.ok st := by
  induction slots generalizing st b with
  | nil => rw [cmd_buffer_emit_binding_table_slots]
  | cons slot rest ih =>
    rw [cmd_buffer_emit_binding_table_slots, h slot (by simp)]
    exact ih _ _ (fun s hs => h s (by simp [hs]))

theorem emit_binding_table_sets_holes (st : FlushState) (bt_off bias : Nat)
    (sets : List (anv_descriptor_set_binding × anv_pipeline_layout_set_stage))
    (h : ∀ p ∈ sets, ∀ slot ∈ p.2.set_layout.surface_slots,
      (p.1.descriptors.getD slot.index anv_descriptor.null).view = none) :
    cmd_buffer_emit_binding_table_sets st bt_off bias sets = Except.ok st := by
  induction sets generalizing st with
  | nil => rw [cmd_buffer_emit_binding_table_sets]
  | cons p rest ih =>
    obtain ⟨d, ls⟩ := p
    rw [cmd_buffer_emit_binding_table_sets,
      emit_binding_table_slots_holes _ _ _ _ _ _ (fun s hs => h (d, ls) (by simp) s hs)]
    exact ih _ (fun q hq s hs => h q (by simp [hq]) s hs)

theorem emit_samplers_slots_holes (st : FlushState) (tbl : Nat)
    (d : anv_descriptor_set_binding) (slots : List anv_descriptor_slot) (start b : Nat)
    (h : ∀ slot ∈ slots, (d.descriptors.getD slot.index anv_descriptor.null).sampler = none) :
    cmd_buffer_emit_samplers_slots st tbl d slots start b = st := by
  induction slots generalizing st b with
  | nil => rw [cmd_buffer_emit_samplers_slots]
  | cons slot rest ih =>
    rw [cmd_buffer_emit_samplers_slots, h slot (by simp)]
    exact ih _ _ (fun s hs => h s (by simp [hs]))

theorem emit_samplers_sets_holes (st : FlushState) (tbl : Nat)
    (sets : List (anv_descriptor_set_binding × anv_pipeline_layout_set_stage))
    (h : ∀ p ∈ sets, ∀ slot ∈ p.2.set_layout.sampler_slots,
      (p.1.descriptors.getD slot.index anv_descriptor.null).sampler = none) :
    cmd_buffer_emit_samplers_sets st tbl sets = st := by
  induction sets generalizing st with
  | nil => rw [cmd_buffer_emit_samplers_sets]
  | cons p rest ih =>
    obtain ⟨d, ls⟩ := p
    rw [cmd_buffer_emit_samplers_sets,
      emit_samplers_slots_holes _ _ _ _ _ _ (fun s hs => h (d, ls) (by simp) s hs)]
    exact ih _ (fun q hq s hs => h q (by simp [hq]) s hs)

theorem emit_samplers_holes (st : FlushState) (inp : stage_flush_input)
    (l : anv_pipeline_layout_stage) (hl : inp.layout = some l)
    (hsamplers : ∀ p ∈ l.sets, ∀ slot ∈ p.2.set_layout.sampler_slots,
      (p.1.descriptors.getD slot.index anv_descriptor.null).sampler = none) :
    ∃ st1 sstate, cmd_buffer_emit_samplers st inp = Except.ok (st1, sstate) ∧
      st1.surface_writes = st.surface_writes ∧
      st1.surface_relocs = st.surface_relocs ∧
      st1.bt_writes = st.bt_writes ∧
      st1.sampler_writes = st.sampler_writes ∧
      st1.surface_next = st.surface_next ∧
      st1.surface_bo_size = st.surface_bo_size := by
  rw [cmd_buffer_emit_samplers, hl]
  simp only []
  by_cases hz : l.sampler_count = 0
  · rw [if_pos hz]
    exact ⟨st, anv_state.zero, rfl, rfl, rfl, rfl, rfl, rfl, rfl⟩
  · rw [if_neg hz]
    rw [emit_samplers_sets_holes _ _ _ hsamplers]
    exact ⟨_, _, rfl, rfl, rfl, rfl, rfl, rfl, rfl⟩

theorem emit_binding_table_holes (st : FlushState) (inp : stage_flush_input)
    (l : anv_pipeline_layout_stage) (hl : inp.layout = some l)
    (hatt : (if inp.stage = VK_SHADER_STAGE_FRAGMENT then inp.color_attachments else []) = [])
    (hviews : ∀ p ∈ l.sets, ∀ slot ∈ p.2.set_layout.surface_slots,
      (p.1.descriptors.getD slot.index anv_descriptor.null).view = none)
    (hfit : ¬ st.surface_bo_size < u32 (align_u32 st.surface_next 32 +
      ((if inp.stage = VK_SHADER_STAGE_FRAGMENT then MAX_RTS else 0) + l.surface_count) * 4)) :
    ∃ st2 bstate, cmd_buffer_emit_binding_table st inp = Except.ok (st2, bstate) ∧
      st2.surface_writes = st.surface_writes ∧
      st2.surface_relocs = st.surface_relocs ∧
      st2.bt_writes = st.bt_writes ∧
      st2.sampler_writes = st.sampler_writes := by
  rw [cmd_buffer_emit_binding_table, hl]
  simp only []
  rw [hatt]
  by_cases hz : l.surface_count = 0
  · rw [if_pos (by simp [hz])]
    exact ⟨st, anv_state.zero, rfl, rfl, rfl, rfl, rfl⟩
  · rw [if_neg (by simp [hz])]
    have halloc : flush_alloc_surface_state st
        (((if inp.stage = VK_SHADER_STAGE_FRAGMENT then MAX_RTS else 0) + l.surface_count) * 4) 32
        = (⟨some (align_u32 st.surface_next 32), align_u32 st.surface_next 32,
            ((if inp.stage = VK_SHADER_STAGE_FRAGMENT then MAX_RTS else 0) + l.surface_count) * 4⟩,
           { st with surface_next := u32 (align_u32 st.surface_next 32 +
              ((if inp.stage = VK_SHADER_STAGE_FRAGMENT then MAX_RTS else 0) + l.surface_count) * 4) }) := by
      rw [flush_alloc_surface_state, anv_cmd_buffer_alloc_surface_state]
      simp only [hfit, if_false]
    rw [halloc]
    simp only []
    rw [cmd_buffer_emit_binding_table_rts]
    simp only []
    rw [emit_binding_table_sets_holes _ _ _ _ hviews]
    exact ⟨_, _, rfl, rfl, rfl, rfl, rfl⟩

/-- Claim C8: flushing a stage whose bound descriptor sets contain only
unwritten (zero-initialized) slots succeeds: every NULL view or sampler
slot is skipped, so no per-slot surface state is allocated, no
binding-table entry and no sampler-table entry is written, and no
relocation is recorded for any such slot. -/
theorem flush_descriptor_set_tolerates_holes
    (st : FlushState) (inp : stage_flush_input) (l : anv_pipeline_layout_stage)
    (hl : inp.layout = some l)
    (hatt : (if inp.stage = VK_SHADER_STAGE_FRAGMENT then inp.color_attachments else []) = [])
    (hviews : ∀ p ∈ l.sets, ∀ slot ∈ p.2.set_layout.surface_slots,
      (p.1.descriptors.getD slot.index anv_descriptor.null).view = none)
    (hsamplers : ∀ p ∈ l.sets, ∀ slot ∈ p.2.set_layout.sampler_slots,
      (p.1.descriptors.getD slot.index anv_descriptor.null).sampler = none)
    (hfit : ¬ st.surface_bo_size < u32 (align_u32 st.surface_next 32 +
      ((if inp.stage = VK_SHADER_STAGE_FRAGMENT then MAX_RTS else 0) + l.surface_count) * 4)) :
    ∃ st4, flush_descriptor_set st inp = Except.ok st4 ∧
      st4.surface_writes = st.surface_writes ∧
      st4.surface_relocs = st.surface_relocs ∧
      st4.bt_writes = st.bt_writes ∧
      st4.sampler_writes = st.sampler_writes := by
  obtain ⟨st1, sstate, he1, hw1, hr1, hb1, hs1, hn1, hz1⟩ :=
    emit_samplers_holes st inp l hl hsamplers
  obtain ⟨st2, bstate, he2, hw2, hr2, hb2, hs2⟩ :=
    emit_binding_table_holes st1 inp l hl hatt hviews (by rw [hn1, hz1]; exact hfit)
  rw [flush_descriptor_set, he1]
  simp only []
  rw [he2]
  simp only []
  refine ⟨_, rfl, ?_, ?_, ?_, ?_⟩
  all_goals
    by_cases hc1 : 0 < sstate.alloc_size <;> by_cases hc2 : 0 < bstate.alloc_size <;>
      simp only [hc1, hc2, if_true, if_false, ite_true, ite_false] <;>
      simp only [hw2, hw1, hr2, hr1, hb2, hb1, hs2, hs1]

/-- Witness for the C8 theorem: one set whose only surface slot and only
sampler slot both point at a zero-initialized descriptor. -/
theorem flush_descriptor_set_tolerates_holes_witness :
    ∃ st4, flush_descriptor_set ⟨1, 8192, 1, 0, [], [], [], [], []⟩
        ⟨0, [], some ⟨[(⟨[⟨none, none⟩], []⟩, ⟨⟨[⟨0, -1⟩], [⟨0, -1⟩]⟩, 0, 0⟩)], 1, 1⟩⟩
      = Except.ok st4 ∧
      st4.surface_writes = ([] : List SurfWrite) ∧
      st4.surface_relocs = ([] : List (Nat × Nat × Nat)) ∧
      st4.bt_writes = ([] : List (Nat × Nat × Nat)) ∧
      st4.sampler_writes = ([] : List (Nat × Nat × Nat)) :=
  flush_descriptor_set_tolerates_holes ⟨1, 8192, 1, 0, [], [], [], [], []⟩
    ⟨0, [], some ⟨[(⟨[⟨none, none⟩], []⟩, ⟨⟨[⟨0, -1⟩], [⟨0, -1⟩]⟩, 0, 0⟩)], 1, 1⟩⟩
    ⟨[(⟨[⟨none, none⟩], []⟩, ⟨⟨[⟨0, -1⟩], [⟨0, -1⟩]⟩, 0, 0⟩)], 1, 1⟩ rfl (by decide)
    (by decide) (by decide) (by decide)
